import Mathlib

/-!
Verification of the CHIP-8 virtual machine core (`src/chip8/core.rs`,
`src/chip8/constants.rs`).

The machine state and every operation the claims touch are embedded as
executable Lean definitions.  Machine integers (`u8`, `u16`) are modelled as
`Nat` with explicit `% 2^w` at each point where the Rust code wraps
(release-mode semantics for `-=`/`+=` on `u16`).  Every place where the Rust
code can panic — slice indexing out of bounds in `load`, array indexing out of
bounds in `push`/`pop`/memory accesses, and the `unimplemented!` arm of
`execute` — is modelled as an `Option` returning `none`: a panic is a reported
fault, never a silent truncation or out-of-bounds write.  The random byte used
by opcode `Cxkk` is passed in as an explicit parameter `rnd`.
-/

namespace Chip8Emu

/-! Constants from `src/chip8/constants.rs`. -/

def SCREEN_WIDTH : Nat := 64

def SCREEN_HEIGHT : Nat := 32

def NUM_REGS : Nat := 16

def NUM_KEYS : Nat := 16

def RAM_SIZE : Nat := 4096

def STACK_SIZE : Nat := 16

def START_ADDR : Nat := 0x200

def FONTSET_SIZE : Nat := 80

def FONTSET : List Nat :=
  [0xF0, 0x90, 0x90, 0x90, 0xF0,
   0x20, 0x60, 0x20, 0x20, 0x70,
   0xF0, 0x10, 0xF0, 0x80, 0xF0,
   0xF0, 0x10, 0xF0, 0x10, 0xF0,
   0x90, 0x90, 0xF0, 0x10, 0x10,
   0xF0, 0x80, 0xF0, 0x10, 0xF0,
   0xF0, 0x80, 0xF0, 0x90, 0xF0,
   0xF0, 0x10, 0x20, 0x40, 0x40,
   0xF0, 0x90, 0xF0, 0x90, 0xF0,
   0xF0, 0x90, 0xF0, 0x10, 0xF0,
   0xF0, 0x90, 0xF0, 0x90, 0x90,
   0xE0, 0x90, 0xE0, 0x90, 0xE0,
   0xF0, 0x80, 0x80, 0x80, 0xF0,
   0xE0, 0x90, 0x90, 0x90, 0xE0,
   0xF0, 0x80, 0xF0, 0x80, 0xF0,
   0xF0, 0x80, 0xF0, 0x80, 0x80]

/-- Wrap a natural number to 8 bits, as Rust `u8` wrapping arithmetic does. -/
def u8 (n : Nat) : Nat := n % 256

/-- Wrap a natural number to 16 bits, as Rust `u16` wrapping arithmetic does. -/
def u16 (n : Nat) : Nat := n % 65536

/-- The machine state of `struct Chip8` (the `rng` field is replaced by the
explicit `rnd` parameter of `execute`). -/
structure Chip8 where
  screen : List Bool
  memory : List Nat
  v_reg : List Nat
  pc : Nat
  i_reg : Nat
  delay_timer_reg : Nat
  sound_timer_reg : Nat
  stack : List Nat
  stack_pointer : Nat
  keyboard : List Bool
deriving DecidableEq

/-- Rust `arr[i] = v`: panics (`none`) when `i` is out of bounds, otherwise
updates in place. -/
def listWrite {α : Type} (l : List α) (i : Nat) (v : α) : Option (List α) :=
  if i < l.length then some (l.set i v) else none

/-- `Chip8::new()`: zeroed state with the font set copied into the first 80
bytes of memory and `pc = START_ADDR`. -/
def Chip8.new : Chip8 :=
  { pc := START_ADDR
    memory := FONTSET ++ List.replicate (RAM_SIZE - FONTSET_SIZE) 0
    screen := List.replicate (SCREEN_WIDTH * SCREEN_HEIGHT) false
    v_reg := List.replicate NUM_REGS 0
    i_reg := 0
    stack_pointer := 0
    stack := List.replicate STACK_SIZE 0
    keyboard := List.replicate NUM_KEYS false
    delay_timer_reg := 0
    sound_timer_reg := 0 }

/-- `Chip8::load`: `self.memory[start..end].copy_from_slice(data)`.  The Rust
slice expression panics when `end` exceeds the memory length, so the model
returns `none` there; otherwise the bytes are spliced in at `START_ADDR`. -/
def Chip8.load (s : Chip8) (data : List Nat) : Option Chip8 :=
  let start := START_ADDR
  let stop := START_ADDR + data.length
  if stop ≤ s.memory.length then
    some { s with memory := s.memory.take start ++ data ++ s.memory.drop stop }
  else none

/-- `Chip8::push`: `self.stack[self.stack_pointer] = val; self.stack_pointer += 1`.
The array write panics (`none`) when the stack pointer is not below the stack
length. -/
def Chip8.push (s : Chip8) (val : Nat) : Option Chip8 :=
  match listWrite s.stack s.stack_pointer val with
  | some st => some { s with stack := st, stack_pointer := s.stack_pointer + 1 }
  | none => none

/-- `Chip8::pop`: `self.stack_pointer -= 1; self.stack[self.stack_pointer]`.
The `u16` decrement wraps (release semantics), after which the array read
panics (`none`) when the new pointer is out of bounds — in particular popping
an empty stack wraps the pointer to 65535 and faults on the read. -/
def Chip8.pop (s : Chip8) : Option (Nat × Chip8) :=
  let sp := u16 (s.stack_pointer + 65535)
  match s.stack.get? sp with
  | some v => some (v, { s with stack_pointer := sp })
  | none => none

/-- One sprite row of the draw opcode `Dxyn`: for each of the 8 columns, if the
sprite bit is set, record whether the pixel was already on (collision) and XOR
it.  `acc` carries the screen buffer and the `flipped` flag. -/
def drawRow (pixels x_coord y_mod : Nat) (acc : List Bool × Bool) : List Bool × Bool :=
  (List.range 8).foldl
    (fun a x_line =>
      if pixels &&& (128 >>> x_line) != 0 then
        let x := (x_coord + x_line) % SCREEN_WIDTH
        let idx := x + SCREEN_WIDTH * y_mod
        (a.1.set idx (!(a.1.getD idx false)), a.2 || a.1.getD idx false)
      else a)
    acc

/-- The row loop of the draw opcode `Dxyn`: row `y_line` is read from
`memory[I + y_line]` (a panic — `none` — when out of bounds) and drawn at
screen row `(y_coord + y_line) % SCREEN_HEIGHT`. -/
def drawSprite (mem : List Nat) (i_reg x_coord y_coord n : Nat) (screen : List Bool) :
    Option (List Bool × Bool) :=
  (List.range n).foldlM
    (fun acc y_line =>
      match mem.get? (u16 (i_reg + y_line)) with
      | some pixels =>
          some (drawRow pixels x_coord ((y_coord + y_line) % SCREEN_HEIGHT) acc)
      | none => none)
    (screen, false)

/-- `Chip8::get_operation_code`: big-endian fetch of the 16-bit opcode at
`memory[pc]`, `memory[pc+1]`, then `pc += 2`.  Out-of-bounds reads are panics
(`none`). -/
def Chip8.get_operation_code (s : Chip8) : Option (Nat × Chip8) :=
  match s.memory.get? s.pc, s.memory.get? (u16 (s.pc + 1)) with
  | some higher_byte, some lower_byte =>
      some ((higher_byte <<< 8) ||| lower_byte, { s with pc := u16 (s.pc + 2) })
  | _, _ => none

/-- `Chip8::execute`: the instruction decoder and the opcode handlers, one
guard per `match` arm of the source, in source order.  The final `none`
models the `unimplemented!` panic of the wildcard arm. -/
def Chip8.execute (s : Chip8) (rnd op : Nat) : Option Chip8 :=
  let digit1 := op / 4096 % 16
  let digit2 := op / 256 % 16
  let digit3 := op / 16 % 16
  let digit4 := op % 16
  if digit1 = 0 ∧ digit2 = 0 ∧ digit3 = 0 ∧ digit4 = 0 then
    some s
  else if digit1 = 0 ∧ digit2 = 0 ∧ digit3 = 14 ∧ digit4 = 0 then
    some { s with screen := List.replicate (SCREEN_WIDTH * SCREEN_HEIGHT) false }
  else if digit1 = 0 ∧ digit2 = 0 ∧ digit3 = 14 ∧ digit4 = 14 then
    match s.pop with
    | some (ret_addr, s1) => some { s1 with pc := ret_addr }
    | none => none
  else if digit1 = 1 then
    some { s with pc := op % 4096 }
  else if digit1 = 2 then
    match s.push s.pc with
    | some s1 => some { s1 with pc := op % 4096 }
    | none => none
  else if digit1 = 3 then
    if s.v_reg.getD digit2 0 = op % 256 then some { s with pc := u16 (s.pc + 2) }
    else some s
  else if digit1 = 4 then
    if s.v_reg.getD digit2 0 ≠ op % 256 then some { s with pc := u16 (s.pc + 2) }
    else some s
  else if digit1 = 5 ∧ digit4 = 0 then
    if s.v_reg.getD digit2 0 = s.v_reg.getD digit3 0 then
      some { s with pc := u16 (s.pc + 2) }
    else some s
  else if digit1 = 6 then
    some { s with v_reg := s.v_reg.set digit2 (op % 256) }
  else if digit1 = 7 then
    some { s with v_reg := s.v_reg.set digit2 (u8 (s.v_reg.getD digit2 0 + op % 256)) }
  else if digit1 = 8 ∧ digit4 = 0 then
    some { s with v_reg := s.v_reg.set digit2 (s.v_reg.getD digit3 0) }
  else if digit1 = 8 ∧ digit4 = 1 then
    some { s with v_reg := s.v_reg.set digit2 (s.v_reg.getD digit2 0 ||| s.v_reg.getD digit3 0) }
  else if digit1 = 8 ∧ digit4 = 2 then
    some { s with v_reg := s.v_reg.set digit2 (s.v_reg.getD digit2 0 &&& s.v_reg.getD digit3 0) }
  else if digit1 = 8 ∧ digit4 = 3 then
    some { s with v_reg := s.v_reg.set digit2 (s.v_reg.getD digit2 0 ^^^ s.v_reg.getD digit3 0) }
  else if digit1 = 8 ∧ digit4 = 4 then
    let vx := s.v_reg.getD digit2 0
    let vy := s.v_reg.getD digit3 0
    let new_vx := u8 (vx + vy)
    let new_vf := if 256 ≤ vx + vy then 1 else 0
    some { s with v_reg := (s.v_reg.set digit2 new_vx).set 15 new_vf }
  else if digit1 = 8 ∧ digit4 = 5 then
    let vx := s.v_reg.getD digit2 0
    let vy := s.v_reg.getD digit3 0
    let new_vx := u8 (vx + 256 - vy)
    let new_vf := if vx < vy then 0 else 1
    some { s with v_reg := (s.v_reg.set digit2 new_vx).set 15 new_vf }
  else if digit1 = 8 ∧ digit4 = 6 then
    let lsb := s.v_reg.getD digit2 0 &&& 1
    some { s with
            v_reg := (s.v_reg.set digit2 (s.v_reg.getD digit2 0 >>> 1)).set 15 lsb }
  else if digit1 = 8 ∧ digit4 = 7 then
    let vx := s.v_reg.getD digit2 0
    let vy := s.v_reg.getD digit3 0
    let new_vx := u8 (vy + 256 - vx)
    let new_vf := if vy < vx then 1 else 0
    some { s with v_reg := (s.v_reg.set digit2 new_vx).set 15 new_vf }
  else if digit1 = 8 ∧ digit4 = 14 then
    let msb := (s.v_reg.getD digit2 0 >>> 7) &&& 1
    some { s with
            v_reg := (s.v_reg.set digit2 (u8 (s.v_reg.getD digit2 0 <<< 1))).set 15 msb }
  else if digit1 = 9 ∧ digit4 = 0 then
    if s.v_reg.getD digit2 0 ≠ s.v_reg.getD digit3 0 then
      some { s with pc := u16 (s.pc + 2) }
    else some s
  else if digit1 = 10 then
    some { s with i_reg := op % 4096 }
  else if digit1 = 11 then
    some { s with pc := u16 (s.v_reg.getD 0 0 + op % 4096) }
  else if digit1 = 12 then
    some { s with v_reg := s.v_reg.set digit2 (u8 rnd &&& op % 256) }
  else if digit1 = 13 then
    let x_coord := s.v_reg.getD digit2 0
    let y_coord := s.v_reg.getD digit3 0
    match drawSprite s.memory s.i_reg x_coord y_coord digit4 s.screen with
    | some res =>
        some { s with screen := res.1,
                      v_reg := s.v_reg.set 15 (if res.2 then 1 else 0) }
    | none => none
  else if digit1 = 14 ∧ digit3 = 9 ∧ digit4 = 14 then
    match s.keyboard.get? (s.v_reg.getD digit2 0) with
    | some key => if key then some { s with pc := u16 (s.pc + 2) } else some s
    | none => none
  else if digit1 = 14 ∧ digit3 = 10 ∧ digit4 = 1 then
    match s.keyboard.get? (s.v_reg.getD digit2 0) with
    | some key => if !key then some { s with pc := u16 (s.pc + 2) } else some s
    | none => none
  else if digit1 = 15 ∧ digit3 = 0 ∧ digit4 = 7 then
    some { s with v_reg := s.v_reg.set digit2 s.delay_timer_reg }
  else if digit1 = 15 ∧ digit3 = 0 ∧ digit4 = 10 then
    match (List.range s.keyboard.length).find? (fun i => s.keyboard.getD i false) with
    | some i =>
        some { s with
                v_reg := s.v_reg.set digit2 (if s.keyboard.getD i false then 1 else 0) }
    | none => some { s with pc := u16 (s.pc + 65534) }
  else if digit1 = 15 ∧ digit3 = 1 ∧ digit4 = 5 then
    some { s with delay_timer_reg := s.v_reg.getD digit2 0 }
  else if digit1 = 15 ∧ digit3 = 1 ∧ digit4 = 8 then
    some { s with sound_timer_reg := s.v_reg.getD digit2 0 }
  else if digit1 = 15 ∧ digit3 = 1 ∧ digit4 = 14 then
    some { s with i_reg := u16 (s.i_reg + s.v_reg.getD digit2 0) }
  else if digit1 = 15 ∧ digit3 = 2 ∧ digit4 = 9 then
    some { s with i_reg := u16 (s.v_reg.getD digit2 0 * 5) }
  else if digit1 = 15 ∧ digit3 = 3 ∧ digit4 = 3 then
    let vx := s.v_reg.getD digit2 0
    let hundreds := vx / 100
    let tens := vx / 10 % 10
    let ones := vx % 10
    match listWrite s.memory s.i_reg hundreds with
    | none => none
    | some m1 =>
      match listWrite m1 (u16 (s.i_reg + 1)) tens with
      | none => none
      | some m2 =>
        match listWrite m2 (u16 (s.i_reg + 2)) ones with
        | none => none
        | some m3 => some { s with memory := m3 }
  else if digit1 = 15 ∧ digit3 = 5 ∧ digit4 = 5 then
    match (List.range (digit2 + 1)).foldlM
        (fun mem i => listWrite mem (s.i_reg + i) (s.v_reg.getD i 0)) s.memory with
    | some m => some { s with memory := m }
    | none => none
  else if digit1 = 15 ∧ digit3 = 6 ∧ digit4 = 5 then
    match (List.range (digit2 + 1)).foldlM
        (fun vr i =>
          match s.memory.get? (s.i_reg + i) with
          | some b => some (vr.set i b)
          | none => none) s.v_reg with
    | some vr => some { s with v_reg := vr }
    | none => none
  else
    none

/-- `Chip8::tick`: fetch then decode-and-execute one instruction. -/
def Chip8.tick (s : Chip8) (rnd : Nat) : Option Chip8 :=
  match s.get_operation_code with
  | some res => Chip8.execute res.2 rnd res.1
  | none => none

/-- `Chip8::tick_timers`: decrement each timer when positive; the returned
Boolean is the "play tone" signal, raised exactly when the sound timer is 1
before its decrement (the source calls `play_sound()` there). -/
def Chip8.tick_timers (s : Chip8) : Chip8 × Bool :=
  let s1 :=
    if s.delay_timer_reg > 0 then
      { s with delay_timer_reg := s.delay_timer_reg - 1 }
    else s
  if s1.sound_timer_reg > 0 then
    ({ s1 with sound_timer_reg := s1.sound_timer_reg - 1 },
     s1.sound_timer_reg == 1)
  else (s1, false)

/-! Concrete machine states used to evaluate the model at specific inputs.
`baseState` keeps the lists that a particular opcode does not touch empty, so
that evaluation by `decide`/`rfl` stays small; the register file always has
its 16 entries. -/

def baseState : Chip8 :=
  { screen := []
    memory := []
    v_reg := List.replicate NUM_REGS 0
    pc := 0
    i_reg := 0
    delay_timer_reg := 0
    sound_timer_reg := 0
    stack := []
    stack_pointer := 0
    keyboard := [] }

/-- State with V0 = 1 and V1 = 2, for opcode 8017. -/
def stC1 : Chip8 :=
  { baseState with v_reg := (baseState.v_reg.set 0 1).set 1 2 }

/-- State with VF = 1, for opcode 8F06. -/
def stC7 : Chip8 :=
  { baseState with v_reg := baseState.v_reg.set 15 1 }

/-- State with an all-false display, I pointing at an all-zero sprite byte,
and V0 = 0, for opcode D001. -/
def stC6 : Chip8 :=
  { baseState with
      screen := List.replicate (SCREEN_WIDTH * SCREEN_HEIGHT) false
      memory := [0] }

/-- State whose 16-slot stack is full (stack pointer 16). -/
def stC4full : Chip8 :=
  { baseState with stack := List.replicate STACK_SIZE 0, stack_pointer := 16 }

/-- State whose 16-slot stack is empty (stack pointer 0). -/
def stC4empty : Chip8 :=
  { baseState with stack := List.replicate STACK_SIZE 0 }

/-- State with V2 = 202 and I = 0x400, for opcode F233. -/
def stC8 : Chip8 :=
  { Chip8.new with v_reg := Chip8.new.v_reg.set 2 202, i_reg := 1024 }

/-- State with I = 0x400 for the Fx55/Fx65 frame theorem. -/
def stC10 : Chip8 := { Chip8.new with i_reg := 1024 }

/-- Fresh machine with opcode F30A (wait for key into V3) stored at 0x200. -/
def stC2 : Chip8 :=
  { Chip8.new with memory := (Chip8.new.memory.set 512 243).set 513 10 }

/-- The same machine with key 4 pressed. -/
def stC2p : Chip8 := { stC2 with keyboard := stC2.keyboard.set 4 true }

/-- Fresh machine with opcode 2400 (CALL 0x400) at 0x200 and opcode 00EE
(RET) at 0x400. -/
def stC9 : Chip8 :=
  { Chip8.new with memory :=
      (((Chip8.new.memory.set 512 36).set 513 0).set 1024 0).set 1025 238 }

/-! Proof-support definitions for analysing the draw opcode.  These are not
part of the embedding of the source: they name the set of screen indices a
sprite touches, so that the two folds of `drawRow`/`drawSprite` can be
characterised pixel-wise. -/

/-- One XOR-toggle of the pixel at `idx`, together with the collision
accumulator — exactly the loop body of `drawRow` at a set sprite bit. -/
def xorStep (a : List Bool × Bool) (idx : Nat) : List Bool × Bool :=
  (a.1.set idx (!(a.1.getD idx false)), a.2 || a.1.getD idx false)

/-- The screen indices touched by one sprite row: columns of set bits, with
x-wraparound applied, at the already-wrapped row `y_mod`. -/
def rowIdxs (pixels x_coord y_mod : Nat) : List Nat :=
  ((List.range 8).filter (fun c => pixels &&& (128 >>> c) != 0)).map
    (fun c => (x_coord + c) % SCREEN_WIDTH + SCREEN_WIDTH * y_mod)

/-- All screen indices touched by an n-row sprite at `(x_coord, y_coord)`
with row bytes read from `mem[i_reg + r]`. -/
def spriteIdxs (mem : List Nat) (i_reg x_coord y_coord n : Nat) : List Nat :=
  (List.range n).flatMap
    (fun r => rowIdxs (mem.getD (i_reg + r) 0) x_coord ((y_coord + r) % SCREEN_HEIGHT))

/-! Helper lemmas about list reads after writes, shared by several proofs. -/

theorem getD_set_self {α : Type} (l : List α) (i : Nat) (v d : α) (h : i < l.length) :
    (l.set i v).getD i d = v := by
  simp [List.getD_eq_getElem?_getD, List.getElem?_set_self h]

theorem getD_set_ne {α : Type} (l : List α) {i j : Nat} (v d : α) (h : i ≠ j) :
    (l.set i v).getD j d = l.getD j d := by
  simp [List.getD_eq_getElem?_getD, List.getElem?_set_ne h]

/-- C5: `tick_timers` decrements each timer only while positive (so, as `Nat`
subtraction, neither ever drops below zero), and the "play tone" signal is
raised exactly on the calls where the sound timer goes from 1 to 0 — that is,
exactly once per nonzero-to-zero transition and never while the timer is
merely nonzero. -/
theorem c5_tick_timers (s : Chip8) :
    s.tick_timers.1.delay_timer_reg = s.delay_timer_reg - 1 ∧
    s.tick_timers.1.sound_timer_reg = s.sound_timer_reg - 1 ∧
    (s.tick_timers.2 = true ↔ s.sound_timer_reg = 1) ∧
    (s.tick_timers.2 = true ↔
      s.sound_timer_reg ≠ 0 ∧ s.tick_timers.1.sound_timer_reg = 0) := by
  unfold Chip8.tick_timers
  by_cases hd : s.delay_timer_reg > 0 <;> by_cases hs : s.sound_timer_reg > 0 <;>
    simp [hd, hs] <;> omega

/-- C1: evaluation of opcode 8xy7 at the failing input Vx = V0 = 1,
Vy = V1 = 2.  Here a = 1 ≤ b = 2, so the claim (and the CHIP-8 reference
semantics, matched by the sibling arm 8xy5) demands VF = 1 (no borrow); the
code instead stores the borrow flag itself, yielding VF = 0, while
Vx = (2 − 1) mod 256 = 1 as claimed. -/
theorem c1_subn_vf_is_borrow :
    (stC1.execute 0 0x8017).map (fun s => (s.v_reg.getD 0 0, s.v_reg.getD 15 0)) =
      some (1, 0) ∧ (0 : Nat) ≠ 1 := by
  exact ⟨rfl, by decide⟩

/-- C7 counterexample: for x = 0xF the claim demands that after opcode 8F06
the register Vx = VF holds the shifted value `1 >>> 1 = 0`; starting from
VF = 1 the code leaves VF = 1, because it shifts first and writes the saved
LSB into VF afterwards, and for x = 0xF that write overwrites the shift. -/
theorem c7_shr_counterexample :
    (stC7.execute 0 0x8F06).map (fun s => s.v_reg.getD 15 0) = some 1 ∧
      (1 : Nat) ≠ 1 >>> 1 := by
  exact ⟨rfl, by decide⟩

/-- C7 amended: for every x, opcode 8x_6 leaves in VF the pre-shift LSB of
Vx; for every x ≠ 0xF it leaves in Vx the shifted value Vx >> 1 (the code
performs the shift first and the VF write second, so for x = 0xF the VF
write overwrites the shifted value). -/
theorem c7_shr (s : Chip8) (rnd op x : Nat)
    (hd1 : op / 4096 % 16 = 8) (hd2 : op / 256 % 16 = x) (hd4 : op % 16 = 6)
    (hreg : s.v_reg.length = NUM_REGS) (hx : x < 16) :
    ∃ s', s.execute rnd op = some s' ∧
      s'.v_reg.getD 15 0 = s.v_reg.getD x 0 &&& 1 ∧
      (x ≠ 15 → s'.v_reg.getD x 0 = s.v_reg.getD x 0 >>> 1) := by
  have hexec : s.execute rnd op = some
      { s with v_reg :=
          (s.v_reg.set x (s.v_reg.getD x 0 >>> 1)).set 15 (s.v_reg.getD x 0 &&& 1) } := by
    simp [Chip8.execute, hd1, hd2, hd4]
  refine ⟨_, hexec, ?_, ?_⟩
  · have h15 : (15 : Nat) < (s.v_reg.set x (s.v_reg.getD x 0 >>> 1)).length := by
      simp [hreg, NUM_REGS]
    exact getD_set_self _ _ _ _ h15
  · intro hxne
    have h1 : (s.v_reg.set x (s.v_reg.getD x 0 >>> 1)).getD x 0 =
        s.v_reg.getD x 0 >>> 1 := by
      refine getD_set_self _ _ _ _ ?_
      simpa [hreg, NUM_REGS] using hx
    show ((s.v_reg.set x (s.v_reg.getD x 0 >>> 1)).set 15 (s.v_reg.getD x 0 &&& 1)).getD x 0 =
      s.v_reg.getD x 0 >>> 1
    rw [getD_set_ne _ _ _ (by omega), h1]

/-- C7 witness: the amended shift theorem applied at x = 0, opcode 8006, on
the state with V0 = 1: VF receives the pre-shift LSB 1 and V0 becomes 0. -/
theorem c7_shr_witness :
    ∃ s', stC1.execute 0 0x8006 = some s' ∧
      s'.v_reg.getD 15 0 = stC1.v_reg.getD 0 0 &&& 1 ∧
      ((0 : Nat) ≠ 15 → s'.v_reg.getD 0 0 = stC1.v_reg.getD 0 0 >>> 1) :=
  c7_shr stC1 0 0x8006 0 (by decide) (by decide) (by decide) (by decide) (by decide)

/-- C4: a push onto a full 16-slot stack and a pop from an empty stack are
faults (`none`, the Rust index panic), never a silent wraparound or an
out-of-bounds write; whenever push or pop do succeed the stack pointer stays
within 0..16 and the stack keeps its 16 slots; the two faults are reachable
through opcode 2nnn at stack pointer 16 and opcode 00EE at stack pointer 0. -/
theorem c4_stack_guard (s : Chip8) (v rnd op : Nat) (hlen : s.stack.length = STACK_SIZE) :
    (s.stack_pointer = 16 → s.push v = none) ∧
    (s.stack_pointer = 0 → s.pop = none) ∧
    (∀ s', s.push v = some s' → s'.stack_pointer ≤ 16 ∧ s'.stack.length = STACK_SIZE) ∧
    (∀ r s', s.pop = some (r, s') → s'.stack_pointer ≤ 16 ∧ s'.stack.length = STACK_SIZE) ∧
    (s.stack_pointer = 16 → op / 4096 % 16 = 2 → s.execute rnd op = none) ∧
    (s.stack_pointer = 0 → s.execute rnd 0x00EE = none) := by
  have hlen16 : s.stack.length = 16 := hlen
  have hpushAll : s.stack_pointer = 16 → ∀ w, s.push w = none := by
    intro hsp w
    simp [Chip8.push, listWrite, hsp, hlen16]
  have hpop : s.stack_pointer = 0 → s.pop = none := by
    intro hsp
    have hnone : s.stack.get? (u16 (s.stack_pointer + 65535)) = none := by
      rw [List.get?_eq_getElem?]
      apply List.getElem?_eq_none
      rw [hsp, hlen16]
      decide
    simp only [Chip8.pop, hnone]
  refine ⟨fun hsp => hpushAll hsp v, hpop, ?_, ?_, ?_, ?_⟩
  · intro s' hs'
    unfold Chip8.push listWrite at hs'
    by_cases h : s.stack_pointer < s.stack.length
    · simp only [if_pos h] at hs'
      simp only [Option.some.injEq] at hs'
      rw [← hs']
      refine ⟨?_, ?_⟩
      · show s.stack_pointer + 1 ≤ 16
        omega
      · show (s.stack.set s.stack_pointer v).length = STACK_SIZE
        simpa using hlen
    · simp [if_neg h] at hs'
  · intro r s' hs'
    simp only [Chip8.pop] at hs'
    rcases hg : s.stack.get? (u16 (s.stack_pointer + 65535)) with _ | w
    · rw [hg] at hs'
      simp at hs'
    · rw [hg] at hs'
      simp only [Option.some.injEq, Prod.mk.injEq] at hs'
      have hlt : u16 (s.stack_pointer + 65535) < s.stack.length := by
        rw [List.get?_eq_getElem?] at hg
        exact (List.getElem?_eq_some_iff.mp hg).1
      rw [← hs'.2]
      refine ⟨?_, ?_⟩
      · show u16 (s.stack_pointer + 65535) ≤ 16
        omega
      · exact hlen
  · intro hsp hd1
    simp [Chip8.execute, hd1, hpushAll hsp]
  · intro hsp
    simp [Chip8.execute, hpop hsp]

/-- C4 witness: the stack-guard theorem applied at the full stack (push
faults) and the empty stack (pop faults). -/
theorem c4_stack_guard_witness :
    stC4full.push 5 = none ∧ stC4empty.pop = none :=
  ⟨(c4_stack_guard stC4full 5 0 0 (by decide)).1 (by decide),
   (c4_stack_guard stC4empty 5 0 0 (by decide)).2.1 (by decide)⟩

/-- C3: loading a byte sequence longer than 4096 − 0x200 = 3584 into memory is
a fault (`none`, the Rust slice-bounds panic) — never a silent truncation and
never a write past the end of memory — while a sequence within the limit is
copied to 0x200.. with every other byte of memory and every other state field
unchanged. -/
theorem c3_load_bounds (s : Chip8) (data : List Nat) (hmem : s.memory.length = RAM_SIZE) :
    (RAM_SIZE - START_ADDR < data.length → s.load data = none) ∧
    (data.length ≤ RAM_SIZE - START_ADDR →
      ∃ s', s.load data = some s' ∧
        s'.memory.length = RAM_SIZE ∧
        (∀ i, i < data.length → s'.memory.get? (START_ADDR + i) = data.get? i) ∧
        (∀ j, j < START_ADDR → s'.memory.get? j = s.memory.get? j) ∧
        (∀ j, START_ADDR + data.length ≤ j → s'.memory.get? j = s.memory.get? j) ∧
        s'.screen = s.screen ∧ s'.v_reg = s.v_reg ∧ s'.pc = s.pc ∧
        s'.i_reg = s.i_reg ∧ s'.delay_timer_reg = s.delay_timer_reg ∧
        s'.sound_timer_reg = s.sound_timer_reg ∧ s'.stack = s.stack ∧
        s'.stack_pointer = s.stack_pointer ∧ s'.keyboard = s.keyboard) := by
  have hmem' : s.memory.length = 4096 := hmem
  have hS : START_ADDR = 512 := rfl
  have hR : RAM_SIZE = 4096 := rfl
  constructor
  · intro hbig
    have h : ¬ (START_ADDR + data.length ≤ s.memory.length) := by
      simp only [hS, hR] at hbig ⊢
      omega
    simp [Chip8.load, h]
  · intro hfit
    rw [hS, hR] at hfit
    have hok : START_ADDR + data.length ≤ s.memory.length := by
      rw [hS]
      omega
    have htl : (s.memory.take START_ADDR).length = START_ADDR := by
      rw [List.length_take, hS, hmem']
      omega
    refine ⟨{ s with memory :=
        s.memory.take START_ADDR ++ data ++ s.memory.drop (START_ADDR + data.length) },
      by simp [Chip8.load, hok], ?_, ?_, ?_, ?_, rfl, rfl, rfl, rfl, rfl, rfl,
      rfl, rfl, rfl⟩
    · show (s.memory.take START_ADDR ++ data ++
        s.memory.drop (START_ADDR + data.length)).length = RAM_SIZE
      rw [List.length_append, List.length_append, htl, List.length_drop, hmem', hS, hR]
      omega
    · intro i hi
      show (s.memory.take START_ADDR ++ data ++
        s.memory.drop (START_ADDR + data.length)).get? (START_ADDR + i) = data.get? i
      rw [List.get?_eq_getElem?, List.get?_eq_getElem?, List.append_assoc,
        List.getElem?_append, htl]
      rw [if_neg (by omega)]
      have h2 : START_ADDR + i - START_ADDR = i := by omega
      rw [h2, List.getElem?_append, if_pos hi]
    · intro j hj
      show (s.memory.take START_ADDR ++ data ++
        s.memory.drop (START_ADDR + data.length)).get? j = s.memory.get? j
      rw [List.get?_eq_getElem?, List.get?_eq_getElem?, List.append_assoc,
        List.getElem?_append, htl, if_pos hj, List.getElem?_take, if_pos hj]
    · intro j hj
      show (s.memory.take START_ADDR ++ data ++
        s.memory.drop (START_ADDR + data.length)).get? j = s.memory.get? j
      rw [List.get?_eq_getElem?, List.get?_eq_getElem?, List.append_assoc,
        List.getElem?_append, htl, if_neg (by omega), List.getElem?_append,
        if_neg (by omega), List.getElem?_drop]
      congr 1
      omega

/-- Memory of a fresh machine has the full 4096 cells. -/
theorem new_memory_length : Chip8.new.memory.length = RAM_SIZE := by
  show (FONTSET ++ List.replicate (RAM_SIZE - FONTSET_SIZE) 0).length = RAM_SIZE
  rw [List.length_append, List.length_replicate]
  decide

/-- C3 witness: the load theorem applied at a 3585-byte sequence (fault) and
at the two-byte sequence 60 05 (copied to 0x200). -/
theorem c3_load_bounds_witness :
    Chip8.load Chip8.new (List.replicate 3585 0) = none ∧
    ∃ s', Chip8.load Chip8.new [96, 5] = some s' ∧ s'.memory.get? 512 = some 96 := by
  constructor
  · refine (c3_load_bounds Chip8.new (List.replicate 3585 0) new_memory_length).1 ?_
    rw [List.length_replicate]
    decide
  · obtain ⟨s', hs, hlen2, hcopy, hrest⟩ :=
      (c3_load_bounds Chip8.new [96, 5] new_memory_length).2 (by decide)
    refine ⟨s', hs, ?_⟩
    simpa [START_ADDR] using hcopy 0 (by decide)

/-- Combining a high byte shifted left by 8 with a low byte below 256 is the
same as positional addition. -/
theorem byte_or (a b : Nat) (h : b < 256) : (a <<< 8) ||| b = a * 256 + b := by
  have h1 : a <<< 8 = 2 ^ 8 * a := by
    rw [Nat.shiftLeft_eq]
    ring
  rw [h1, ← Nat.mul_add_lt_is_or h a]
  ring

/-- C8: opcode Fx33 stores the decimal digits of the 8-bit value Vx at
memory[I], memory[I+1], memory[I+2] — hundreds, tens, ones — leaving the
registers, PC and I unchanged.  The source computes the digits in `f32`
arithmetic; on 0..255 the operations divide-by-100, divide-by-10,
remainder-by-10 and floor are all exact, so the model uses integer
floor-division and remainder. -/
theorem c8_bcd (s : Chip8) (rnd op x : Nat)
    (hmem : s.memory.length = RAM_SIZE)
    (hd1 : op / 4096 % 16 = 15) (hd2 : op / 256 % 16 = x)
    (hd3 : op / 16 % 16 = 3) (hd4 : op % 16 = 3)
    (hvx : s.v_reg.getD x 0 < 256)
    (hi : s.i_reg + 2 < RAM_SIZE) :
    ∃ s', s.execute rnd op = some s' ∧
      s'.memory.get? s.i_reg = some (s.v_reg.getD x 0 / 100) ∧
      s'.memory.get? (s.i_reg + 1) = some (s.v_reg.getD x 0 / 10 % 10) ∧
      s'.memory.get? (s.i_reg + 2) = some (s.v_reg.getD x 0 % 10) ∧
      s'.v_reg = s.v_reg ∧ s'.pc = s.pc ∧ s'.i_reg = s.i_reg := by
  have hR : RAM_SIZE = 4096 := rfl
  have hi4 : s.i_reg + 2 < 4096 := by omega
  have hmem4 : s.memory.length = 4096 := by omega
  have hu1 : u16 (s.i_reg + 1) = s.i_reg + 1 := by
    unfold u16
    omega
  have hu2 : u16 (s.i_reg + 2) = s.i_reg + 2 := by
    unfold u16
    omega
  set vx := s.v_reg.getD x 0 with hvxdef
  have hw1 : listWrite s.memory s.i_reg (vx / 100) =
      some (s.memory.set s.i_reg (vx / 100)) := by
    unfold listWrite
    rw [if_pos (by omega)]
  have hw2 : listWrite (s.memory.set s.i_reg (vx / 100)) (s.i_reg + 1) (vx / 10 % 10) =
      some ((s.memory.set s.i_reg (vx / 100)).set (s.i_reg + 1) (vx / 10 % 10)) := by
    unfold listWrite
    rw [if_pos (by simp [hmem4]; omega)]
  have hw3 : listWrite ((s.memory.set s.i_reg (vx / 100)).set (s.i_reg + 1) (vx / 10 % 10))
      (s.i_reg + 2) (vx % 10) =
      some (((s.memory.set s.i_reg (vx / 100)).set (s.i_reg + 1) (vx / 10 % 10)).set
        (s.i_reg + 2) (vx % 10)) := by
    unfold listWrite
    rw [if_pos (by simp [hmem4]; omega)]
  have hexec : s.execute rnd op = some { s with memory := ((s.memory.set s.i_reg (vx / 100)).set (s.i_reg + 1) (vx / 10 % 10)).set (s.i_reg + 2) (vx % 10) } := by
    simp only [Chip8.execute, hd1, hd2, hd3, hd4, hu1, hu2, ← hvxdef, hw1, hw2, hw3]
    norm_num
  refine ⟨_, hexec, ?_, ?_, ?_, rfl, rfl, rfl⟩
  · show (((s.memory.set s.i_reg (vx / 100)).set (s.i_reg + 1) (vx / 10 % 10)).set (s.i_reg + 2) (vx % 10)).get? s.i_reg = some (vx / 100)
    rw [List.get?_eq_getElem?, List.getElem?_set_ne (by omega), List.getElem?_set_ne (by omega), List.getElem?_set_self (by omega)]
  · show (((s.memory.set s.i_reg (vx / 100)).set (s.i_reg + 1) (vx / 10 % 10)).set (s.i_reg + 2) (vx % 10)).get? (s.i_reg + 1) = some (vx / 10 % 10)
    rw [List.get?_eq_getElem?, List.getElem?_set_ne (by omega), List.getElem?_set_self (by simp [hmem4]; omega)]
  · show (((s.memory.set s.i_reg (vx / 100)).set (s.i_reg + 1) (vx / 10 % 10)).set (s.i_reg + 2) (vx % 10)).get? (s.i_reg + 2) = some (vx % 10)
    rw [List.get?_eq_getElem?, List.getElem?_set_self (by simp [hmem4]; omega)]

/-- C8 witness: the BCD theorem applied at Vx = V2 = 202, I = 0x400: memory
receives 2, 0, 2. -/
theorem c8_bcd_witness :
    ∃ s', stC8.execute 0 0xF233 = some s' ∧
      s'.memory.get? 1024 = some 2 ∧ s'.memory.get? 1025 = some 0 ∧
      s'.memory.get? 1026 = some 2 := by
  obtain ⟨s', hex, h0, h1, h2, hrest⟩ :=
    c8_bcd stC8 0 0xF233 2 new_memory_length (by decide) (by decide) (by decide)
      (by decide) (by decide) (by decide)
  exact ⟨s', hex, by simpa using h0, by simpa using h1, by simpa using h2⟩

/-- A left fold of guarded writes over in-bounds indices never faults and
preserves the length of the written list. -/
theorem foldlM_listWrite_total (base : Nat) (f : Nat → Nat) :
    ∀ (l : List Nat) (mem : List Nat), (∀ i, i ∈ l → base + i < mem.length) →
      ∃ m, l.foldlM (fun mm i => listWrite mm (base + i) (f i)) mem = some m ∧
        m.length = mem.length := by
  intro l
  induction l with
  | nil => exact fun mem _ => ⟨mem, rfl, rfl⟩
  | cons a t ih =>
    intro mem h
    have ha : base + a < mem.length := h a (by simp)
    obtain ⟨m, hm, hlen⟩ := ih (mem.set (base + a) (f a)) (by
      intro i hi
      simpa using h i (List.mem_cons_of_mem _ hi))
    refine ⟨m, ?_, by simpa using hlen⟩
    have hw : listWrite mem (base + a) (f a) = some (mem.set (base + a) (f a)) := by
      unfold listWrite
      rw [if_pos ha]
    rw [List.foldlM_cons, hw]
    simpa using hm

/-- A left fold of guarded reads over in-bounds indices never faults. -/
theorem foldlM_read_total (mem : List Nat) (base : Nat) :
    ∀ (l : List Nat) (vr : List Nat), (∀ i, i ∈ l → base + i < mem.length) →
      ∃ v, l.foldlM (fun vr i =>
          match mem.get? (base + i) with
          | some b => some (vr.set i b)
          | none => none) vr = some v := by
  intro l
  induction l with
  | nil => exact fun vr _ => ⟨vr, rfl⟩
  | cons a t ih =>
    intro vr h
    have ha : base + a < mem.length := h a (by simp)
    obtain ⟨b, hb⟩ : ∃ b, mem.get? (base + a) = some b := by
      rw [List.get?_eq_getElem?]
      exact ⟨mem[base + a], List.getElem?_eq_some_iff.mpr ⟨ha, rfl⟩⟩
    obtain ⟨v, hv⟩ := ih (vr.set a b) (by
      intro i hi
      exact h i (List.mem_cons_of_mem _ hi))
    refine ⟨v, ?_⟩
    rw [List.foldlM_cons, hb]
    simpa using hv

/-- C10: opcodes Fx55 (store V0..Vx to memory[I..]) and Fx65 (load V0..Vx from
memory[I..]) both leave the index register I unchanged — this implementation
never increments I as some historical CHIP-8 variants do — and additionally
Fx55 leaves every V register (and the memory length) unchanged while Fx65
leaves all of memory unchanged. -/
theorem c10_store_load_frame (s : Chip8) (rnd op x : Nat)
    (hmem : s.memory.length = RAM_SIZE)
    (hd2 : op / 256 % 16 = x)
    (hi : s.i_reg + x < RAM_SIZE) :
    (op / 4096 % 16 = 15 → op / 16 % 16 = 5 → op % 16 = 5 →
      ∃ s', s.execute rnd op = some s' ∧ s'.i_reg = s.i_reg ∧ s'.v_reg = s.v_reg ∧
        s'.pc = s.pc ∧ s'.memory.length = s.memory.length) ∧
    (op / 4096 % 16 = 15 → op / 16 % 16 = 6 → op % 16 = 5 →
      ∃ s', s.execute rnd op = some s' ∧ s'.i_reg = s.i_reg ∧ s'.memory = s.memory ∧
        s'.pc = s.pc) := by
  have hR : RAM_SIZE = 4096 := rfl
  constructor
  · intro hd1 hd3 hd4
    obtain ⟨m, hm, hlen⟩ := foldlM_listWrite_total s.i_reg (fun i => s.v_reg.getD i 0)
      (List.range (x + 1)) s.memory (by
        intro i hi'
        rw [List.mem_range] at hi'
        omega)
    have hexec : s.execute rnd op = some { s with memory := m } := by
      simp only [Chip8.execute, hd1, hd2, hd3, hd4, hm]
      norm_num
    exact ⟨_, hexec, rfl, rfl, rfl, hlen⟩
  · intro hd1 hd3 hd4
    obtain ⟨v, hv⟩ := foldlM_read_total s.memory s.i_reg (List.range (x + 1)) s.v_reg (by
      intro i hi'
      rw [List.mem_range] at hi'
      omega)
    have hexec : s.execute rnd op = some { s with v_reg := v } := by
      simp only [Chip8.execute, hd1, hd2, hd3, hd4, hv]
      norm_num
    exact ⟨_, hexec, rfl, rfl, rfl⟩

/-- C10 witness: the frame theorem applied at x = 1 with I = 0x400, for both
opcode F155 and opcode F165. -/
theorem c10_store_load_frame_witness :
    (∃ s', stC10.execute 0 0xF155 = some s' ∧ s'.i_reg = stC10.i_reg ∧
      s'.v_reg = stC10.v_reg ∧ s'.pc = stC10.pc ∧
      s'.memory.length = stC10.memory.length) ∧
    (∃ s', stC10.execute 0 0xF165 = some s' ∧ s'.i_reg = stC10.i_reg ∧
      s'.memory = stC10.memory ∧ s'.pc = stC10.pc) := by
  have hmem : stC10.memory.length = RAM_SIZE := new_memory_length
  constructor
  · exact (c10_store_load_frame stC10 0 0xF155 1 hmem (by decide) (by decide)).1
      (by decide) (by decide) (by decide)
  · exact (c10_store_load_frame stC10 0 0xF165 1 hmem (by decide) (by decide)).2
      (by decide) (by decide) (by decide)

/-- Reduction of `execute` at an Fx0A opcode: the keyboard scan arm. -/
theorem execute_fx0a (s : Chip8) (rnd op x : Nat)
    (hd1 : op / 4096 % 16 = 15) (hd2 : op / 256 % 16 = x)
    (hd3 : op / 16 % 16 = 0) (hd4 : op % 16 = 10) :
    s.execute rnd op =
      match (List.range s.keyboard.length).find? (fun i => s.keyboard.getD i false) with
      | some i =>
          some { s with v_reg := s.v_reg.set x (if s.keyboard.getD i false then 1 else 0) }
      | none => some { s with pc := u16 (s.pc + 65534) } := by
  simp only [Chip8.execute, hd1, hd2, hd3, hd4]
  norm_num

/-- C2: a tick that fetches opcode Fx0A scans the 16 keyboard flags in index
order.  When no key is pressed the PC is rewound by 2, cancelling the fetch
advance, so the net PC movement across the tick is zero and the instruction
re-executes on the next tick; when some key is pressed, Vx receives the
pressed-state value 1 (not the key's index) and the PC advances by 2 as for
any normal instruction. -/
theorem c2_key_wait (s : Chip8) (rnd x : Nat)
    (hx : x < 16)
    (hmem : s.memory.length = RAM_SIZE)
    (hkb : s.keyboard.length = NUM_KEYS)
    (hb : s.memory.get? s.pc = some (240 + x))
    (lb : s.memory.get? (s.pc + 1) = some 10) :
    ((∀ i, i < 16 → s.keyboard.getD i false = false) →
      ∃ s', s.tick rnd = some s' ∧ s'.pc = s.pc ∧ s'.v_reg = s.v_reg) ∧
    ((∃ i, i < 16 ∧ s.keyboard.getD i false = true) →
      ∃ s', s.tick rnd = some s' ∧ s'.pc = s.pc + 2 ∧ s'.v_reg = s.v_reg.set x 1) := by
  have hR : RAM_SIZE = 4096 := rfl
  have hpc : s.pc < 4096 := by
    rw [List.get?_eq_getElem?] at hb
    have h := (List.getElem?_eq_some_iff.mp hb).1
    omega
  have hu1 : u16 (s.pc + 1) = s.pc + 1 := by
    unfold u16
    omega
  have hu2 : u16 (s.pc + 2) = s.pc + 2 := by
    unfold u16
    omega
  have hop : ((240 + x) <<< 8) ||| 10 = (240 + x) * 256 + 10 := byte_or _ _ (by omega)
  have hd1 : (((240 + x) <<< 8) ||| 10) / 4096 % 16 = 15 := by
    rw [hop]
    omega
  have hd2 : (((240 + x) <<< 8) ||| 10) / 256 % 16 = x := by
    rw [hop]
    omega
  have hd3 : (((240 + x) <<< 8) ||| 10) / 16 % 16 = 0 := by
    rw [hop]
    omega
  have hd4 : (((240 + x) <<< 8) ||| 10) % 16 = 10 := by
    rw [hop]
    omega
  have hfetch : s.get_operation_code =
      some (((240 + x) <<< 8) ||| 10, { s with pc := u16 (s.pc + 2) }) := by
    simp only [Chip8.get_operation_code, hu1, hb, lb]
  have hkb16 : s.keyboard.length = 16 := hkb
  have htick : s.tick rnd =
      match (List.range s.keyboard.length).find? (fun i => s.keyboard.getD i false) with
      | some i =>
          some { s with pc := u16 (s.pc + 2),
                        v_reg := s.v_reg.set x (if s.keyboard.getD i false then 1 else 0) }
      | none => some { s with pc := u16 (u16 (s.pc + 2) + 65534) } := by
    simp only [Chip8.tick, hfetch]
    rw [execute_fx0a _ rnd _ x hd1 hd2 hd3 hd4]
  constructor
  · intro hall
    have hfind : (List.range s.keyboard.length).find?
        (fun i => s.keyboard.getD i false) = none := by
      rw [List.find?_eq_none]
      intro i hi
      rw [List.mem_range, hkb16] at hi
      rw [hall i hi]
      decide
    rw [hfind] at htick
    refine ⟨_, htick, ?_, rfl⟩
    show u16 (u16 (s.pc + 2) + 65534) = s.pc
    unfold u16
    omega
  · intro hsome
    have hfindSome : ((List.range s.keyboard.length).find?
        (fun i => s.keyboard.getD i false)).isSome := by
      rw [List.find?_isSome]
      obtain ⟨i, hi, hkey⟩ := hsome
      exact ⟨i, by rw [List.mem_range, hkb16]; omega, hkey⟩
    obtain ⟨j, hj⟩ := Option.isSome_iff_exists.mp hfindSome
    have hjkey : s.keyboard.getD j false = true := by
      have h := List.find?_some hj
      simpa using h
    rw [hj] at htick
    refine ⟨_, htick, hu2, ?_⟩
    have hjkey2 : s.keyboard[j]?.getD false = true := by
      rw [← List.getD_eq_getElem?_getD]
      exact hjkey
    simp [hjkey2]

/-- Reduction of `execute` at a 2nnn opcode: the CALL arm. -/
theorem execute_call (s : Chip8) (rnd op : Nat) (hd1 : op / 4096 % 16 = 2) :
    s.execute rnd op =
      match s.push s.pc with
      | some s1 => some { s1 with pc := op % 4096 }
      | none => none := by
  simp only [Chip8.execute, hd1]
  norm_num

/-- C9: from any state whose call stack is not full, a tick executing CALL nnn
(opcode 2nnn) followed by a tick executing RET (opcode 00EE, stored at nnn)
brings the PC to the address just after the CALL — the original PC + 2 — and
returns the stack pointer to its pre-CALL value. -/
theorem c9_call_ret (s : Chip8) (rnd rnd2 n_hi l1 : Nat)
    (hmem : s.memory.length = RAM_SIZE)
    (hstack : s.stack.length = STACK_SIZE)
    (hsp : s.stack_pointer < 16)
    (hhi : n_hi < 16) (hlo : l1 < 256)
    (hb : s.memory.get? s.pc = some (32 + n_hi))
    (lb : s.memory.get? (s.pc + 1) = some l1)
    (hr1 : s.memory.get? (n_hi * 256 + l1) = some 0)
    (hr2 : s.memory.get? (n_hi * 256 + l1 + 1) = some 238) :
    ∃ s2, (s.tick rnd).bind (fun s1 => s1.tick rnd2) = some s2 ∧
      s2.pc = s.pc + 2 ∧ s2.stack_pointer = s.stack_pointer := by
  have hR : RAM_SIZE = 4096 := rfl
  have hpc : s.pc < 4096 := by
    rw [List.get?_eq_getElem?] at hb
    have h := (List.getElem?_eq_some_iff.mp hb).1
    omega
  have hsl : s.stack.length = 16 := hstack
  have hnnn : n_hi * 256 + l1 < 4096 := by omega
  have hu1 : u16 (s.pc + 1) = s.pc + 1 := by
    unfold u16
    omega
  have hu2 : u16 (s.pc + 2) = s.pc + 2 := by
    unfold u16
    omega
  have hun1 : u16 (n_hi * 256 + l1 + 1) = n_hi * 256 + l1 + 1 := by
    unfold u16
    omega
  have hop : ((32 + n_hi) <<< 8) ||| l1 = (32 + n_hi) * 256 + l1 := byte_or _ _ hlo
  have hd1 : (((32 + n_hi) <<< 8) ||| l1) / 4096 % 16 = 2 := by
    rw [hop]
    omega
  have hmod : (((32 + n_hi) <<< 8) ||| l1) % 4096 = n_hi * 256 + l1 := by
    rw [hop]
    omega
  have hfetch1 : s.get_operation_code =
      some (((32 + n_hi) <<< 8) ||| l1, { s with pc := u16 (s.pc + 2) }) := by
    simp only [Chip8.get_operation_code, hu1, hb, lb]
  have hwrite : listWrite s.stack s.stack_pointer (s.pc + 2) =
      some (s.stack.set s.stack_pointer (s.pc + 2)) := by
    unfold listWrite
    rw [if_pos (by omega)]
  have htick1 : s.tick rnd = some { s with
      pc := n_hi * 256 + l1
      stack := s.stack.set s.stack_pointer (s.pc + 2)
      stack_pointer := s.stack_pointer + 1 } := by
    simp only [Chip8.tick, hfetch1, execute_call _ rnd _ hd1, Chip8.push, hu2, hwrite,
      hmod]
  have hfetch2 : ({ s with
      pc := n_hi * 256 + l1
      stack := s.stack.set s.stack_pointer (s.pc + 2)
      stack_pointer := s.stack_pointer + 1 } : Chip8).get_operation_code =
      some (238, { s with
        pc := u16 (n_hi * 256 + l1 + 2)
        stack := s.stack.set s.stack_pointer (s.pc + 2)
        stack_pointer := s.stack_pointer + 1 }) := by
    have h238 : ((0 : Nat) <<< 8) ||| 238 = 238 := by decide
    simp only [Chip8.get_operation_code]
    simp only [hun1, hr1, hr2, h238]
  have hpopget : (s.stack.set s.stack_pointer (s.pc + 2)).get?
      (u16 (s.stack_pointer + 1 + 65535)) = some (s.pc + 2) := by
    have hsp2 : u16 (s.stack_pointer + 1 + 65535) = s.stack_pointer := by
      unfold u16
      omega
    rw [hsp2, List.get?_eq_getElem?]
    exact List.getElem?_set_self (by omega)
  have hsp2 : u16 (s.stack_pointer + 1 + 65535) = s.stack_pointer := by
    unfold u16
    omega
  refine ⟨{ s with
      pc := s.pc + 2
      stack := s.stack.set s.stack_pointer (s.pc + 2)
      stack_pointer := u16 (s.stack_pointer + 1 + 65535) }, ?_, rfl, hsp2⟩
  rw [htick1]
  show Chip8.tick _ rnd2 = _
  simp only [Chip8.tick, hfetch2, Chip8.execute, Chip8.pop, hpopget]
  norm_num

set_option maxRecDepth 100000 in
/-- C2 witness: the key-wait theorem applied to the fresh machine with F30A at
0x200 — once with no key pressed (PC stays 0x200) and once with key 4 pressed
(V3 receives 1 and PC advances to 0x202). -/
theorem c2_key_wait_witness :
    (∃ s', stC2.tick 0 = some s' ∧ s'.pc = stC2.pc ∧ s'.v_reg = stC2.v_reg) ∧
    (∃ s', stC2p.tick 0 = some s' ∧ s'.pc = stC2p.pc + 2 ∧
      s'.v_reg = stC2p.v_reg.set 3 1) := by
  have hmem2 : stC2.memory.length = RAM_SIZE := by
    show ((Chip8.new.memory.set 512 243).set 513 10).length = RAM_SIZE
    rw [List.length_set, List.length_set]
    exact new_memory_length
  constructor
  · refine (c2_key_wait stC2 0 3 (by decide) hmem2 (by decide) (by decide) (by decide)).1 ?_
    intro i hi
    interval_cases i <;> rfl
  · exact (c2_key_wait stC2p 0 3 (by decide) hmem2 (by decide) (by decide) (by decide)).2
      ⟨4, by decide, by decide⟩

set_option maxRecDepth 100000 in
/-- C9 witness: the call/return theorem applied to the fresh machine with
CALL 0x400 at 0x200 and RET at 0x400: after the two ticks PC is 0x202 and the
stack pointer is back to 0. -/
theorem c9_call_ret_witness :
    ∃ s2, (stC9.tick 0).bind (fun s1 => s1.tick 0) = some s2 ∧
      s2.pc = stC9.pc + 2 ∧ s2.stack_pointer = stC9.stack_pointer := by
  have hmem9 : stC9.memory.length = RAM_SIZE := by
    show ((((Chip8.new.memory.set 512 36).set 513 0).set 1024 0).set 1025 238).length =
      RAM_SIZE
    rw [List.length_set, List.length_set, List.length_set, List.length_set]
    exact new_memory_length
  exact c9_call_ret stC9 0 0 4 0 hmem9 (by decide) (by decide) (by decide) (by decide)
    (by decide) (by decide) (by decide) (by decide)

/-- Congruence for `List.any` under pointwise-equal predicates. -/
theorem list_any_congr {α : Type} (p q : α → Bool) :
    ∀ (l : List α), (∀ xx, xx ∈ l → p xx = q xx) → l.any p = l.any q := by
  intro l
  induction l with
  | nil => intro _; rfl
  | cons a t ih =>
    intro h
    rw [List.any_cons, List.any_cons, h a (List.mem_cons_self a t),
      ih (fun xx hxx => h xx (List.mem_cons_of_mem a hxx))]

/-- Reading any position of an all-false buffer yields false. -/
theorem getD_replicate_false (k j : Nat) : (List.replicate k false).getD j false = false := by
  rw [List.getD_eq_getElem?_getD, List.getElem?_replicate]
  by_cases h : j < k <;> simp [h]

/-- A fold whose body fires only on elements satisfying `p` equals the plain
fold over the filtered, mapped list. -/
theorem foldl_filter_map {α β γ : Type} (p : α → Bool) (g : α → γ) (step : β → γ → β) :
    ∀ (l : List α) (init : β),
      l.foldl (fun a xx => if p xx then step a (g xx) else a) init =
        ((l.filter p).map g).foldl step init := by
  intro l
  induction l with
  | nil => intro _; rfl
  | cons a t ih =>
    intro init
    cases h : p a <;> simp [List.foldl_cons, List.filter_cons, h, ih]

/-- `drawRow` is the `xorStep` fold over the indices of its set sprite bits. -/
theorem drawRow_eq (pixels x_coord y_mod : Nat) (acc : List Bool × Bool) :
    drawRow pixels x_coord y_mod acc = (rowIdxs pixels x_coord y_mod).foldl xorStep acc := by
  unfold drawRow rowIdxs
  exact foldl_filter_map (fun c => pixels &&& (128 >>> c) != 0)
    (fun c => (x_coord + c) % SCREEN_WIDTH + SCREEN_WIDTH * y_mod) xorStep
    (List.range 8) acc

/-- Pixel-wise description of an `xorStep` fold over pairwise-distinct
in-bounds indices: the buffer keeps its length, every index in the list is
toggled, and the collision flag records whether any listed pixel was on. -/
theorem foldl_xorStep :
    ∀ (L : List Nat) (scr : List Bool) (fl : Bool), L.Nodup →
      (∀ idx, idx ∈ L → idx < scr.length) →
      ((L.foldl xorStep (scr, fl)).1.length = scr.length ∧
       (∀ j, (L.foldl xorStep (scr, fl)).1.getD j false =
          xor (scr.getD j false) (decide (j ∈ L))) ∧
       (L.foldl xorStep (scr, fl)).2 = (fl || L.any (fun idx => scr.getD idx false))) := by
  intro L
  induction L with
  | nil =>
    intro scr fl _ _
    exact ⟨rfl, fun j => by simp, by simp⟩
  | cons a t ih =>
    intro scr fl hnd hlt
    obtain ⟨hna, hnt⟩ := List.nodup_cons.mp hnd
    have ha : a < scr.length := hlt a (List.mem_cons_self a t)
    have hstep : xorStep (scr, fl) a = (scr.set a (!(scr.getD a false)), fl || scr.getD a false) := rfl
    have hlt1 : ∀ idx, idx ∈ t → idx < (scr.set a (!(scr.getD a false))).length := by
      intro idx hidx
      rw [List.length_set]
      exact hlt idx (List.mem_cons_of_mem a hidx)
    obtain ⟨ihlen, ihget, ihfl⟩ :=
      ih (scr.set a (!(scr.getD a false))) (fl || scr.getD a false) hnt hlt1
    rw [List.foldl_cons, hstep]
    refine ⟨?_, ?_, ?_⟩
    · rw [ihlen, List.length_set]
    · intro j
      rw [ihget j]
      by_cases hj : j = a
      · subst hj
        rw [getD_set_self _ _ _ _ ha]
        simp [hna]
      · rw [getD_set_ne _ _ _ (fun he => hj he.symm)]
        simp [List.mem_cons, hj]
    · rw [ihfl]
      have hany : t.any (fun idx => (scr.set a (!(scr.getD a false))).getD idx false) =
          t.any (fun idx => scr.getD idx false) := by
        apply list_any_congr
        intro idx hidx
        exact getD_set_ne _ _ _ (fun he => hna (he ▸ hidx))
      rw [hany, List.any_cons]
      cases fl <;> cases hsa : scr.getD a false <;> simp

/-- The row loop of the draw opcode, with all its memory reads in bounds,
never faults and equals the `xorStep` fold over the sprite's index list. -/
theorem drawSprite_core (mem : List Nat) (i_reg x_coord y_coord : Nat) :
    ∀ (n : Nat) (acc : List Bool × Bool),
      (∀ r, r < n → i_reg + r < mem.length) → mem.length ≤ 65536 →
      (List.range n).foldlM
        (fun a y_line =>
          match mem.get? (u16 (i_reg + y_line)) with
          | some pixels =>
              some (drawRow pixels x_coord ((y_coord + y_line) % SCREEN_HEIGHT) a)
          | none => none) acc =
      some ((spriteIdxs mem i_reg x_coord y_coord n).foldl xorStep acc) := by
  intro n
  induction n with
  | zero => intro acc _ _; rfl
  | succ n ih =>
    intro acc hr hm
    rw [List.range_succ, List.foldlM_append, ih acc (fun r hrn => hr r (by omega)) hm]
    have hlt := hr n (by omega)
    have haddr : u16 (i_reg + n) = i_reg + n := by
      unfold u16
      omega
    have h1 : mem[i_reg + n]? = some mem[i_reg + n] :=
      List.getElem?_eq_some_iff.mpr ⟨hlt, rfl⟩
    have hget : mem.get? (i_reg + n) = some (mem.getD (i_reg + n) 0) := by
      rw [List.get?_eq_getElem?, List.getD_eq_getElem?_getD, h1]
      rfl
    have hsplit : spriteIdxs mem i_reg x_coord y_coord (n + 1) =
        spriteIdxs mem i_reg x_coord y_coord n ++
          rowIdxs (mem.getD (i_reg + n) 0) x_coord ((y_coord + n) % SCREEN_HEIGHT) := by
      unfold spriteIdxs
      rw [List.range_succ, List.flatMap_append]
      simp
    rw [hsplit, List.foldl_append]
    simp only [Option.bind_eq_bind, Option.some_bind, List.foldlM_cons, List.foldlM_nil,
      haddr, hget]
    rw [drawRow_eq]
    rfl

/-- `drawSprite` with in-bounds reads equals the `xorStep` fold over the
sprite's index list, starting from a clear collision flag. -/
theorem drawSprite_eq (mem : List Nat) (i_reg x_coord y_coord n : Nat) (screen : List Bool)
    (hr : ∀ r, r < n → i_reg + r < mem.length) (hm : mem.length ≤ 65536) :
    drawSprite mem i_reg x_coord y_coord n screen =
      some ((spriteIdxs mem i_reg x_coord y_coord n).foldl xorStep (screen, false)) :=
  drawSprite_core mem i_reg x_coord y_coord n (screen, false) hr hm

/-- The indices a sprite touches are pairwise distinct: within a row the 8
columns stay distinct modulo 64, and distinct rows (below 32) land on
distinct wrapped screen rows. -/
theorem spriteIdxs_nodup (mem : List Nat) (i_reg x_coord y_coord n : Nat) (hn : n ≤ 32) :
    (spriteIdxs mem i_reg x_coord y_coord n).Nodup := by
  have h64 : SCREEN_WIDTH = 64 := rfl
  have h32 : SCREEN_HEIGHT = 32 := rfl
  unfold spriteIdxs rowIdxs
  rw [List.nodup_flatMap]
  constructor
  · intro r _
    apply List.Nodup.map_on
    · intro c1 hc1 c2 hc2 heq
      rw [List.mem_filter, List.mem_range] at hc1 hc2
      rw [h64] at heq
      omega
    · exact (List.nodup_range 8).filter _
  · apply List.Pairwise.imp_of_mem ?_ (List.pairwise_lt_range n)
    intro r1 r2 h1 h2 hlt12
    rw [List.mem_range] at h1 h2
    intro a ha1 ha2
    rw [List.mem_map] at ha1 ha2
    obtain ⟨c1, hc1, he1⟩ := ha1
    obtain ⟨c2, hc2, he2⟩ := ha2
    rw [List.mem_filter, List.mem_range] at hc1 hc2
    rw [h64, h32] at he1 he2
    omega

/-- Every index a sprite touches is inside the 64×32 screen. -/
theorem spriteIdxs_lt (mem : List Nat) (i_reg x_coord y_coord n : Nat) :
    ∀ j, j ∈ spriteIdxs mem i_reg x_coord y_coord n → j < SCREEN_WIDTH * SCREEN_HEIGHT := by
  have h64 : SCREEN_WIDTH = 64 := rfl
  have h32 : SCREEN_HEIGHT = 32 := rfl
  intro j hj
  unfold spriteIdxs rowIdxs at hj
  rw [List.mem_flatMap] at hj
  obtain ⟨r, hr, hj2⟩ := hj
  rw [List.mem_map] at hj2
  obtain ⟨c, hc, he⟩ := hj2
  rw [h64, h32] at he
  rw [h64, h32]
  omega

/-- A sprite touches no pixel exactly when all its row bytes have no set bit
among the 8 tested columns. -/
theorem spriteIdxs_eq_nil_iff (mem : List Nat) (i_reg x_coord y_coord n : Nat) :
    spriteIdxs mem i_reg x_coord y_coord n = [] ↔
      ∀ r, r < n → ∀ c, c < 8 → mem.getD (i_reg + r) 0 &&& (128 >>> c) = 0 := by
  unfold spriteIdxs rowIdxs
  rw [List.flatMap_eq_nil_iff]
  constructor
  · intro h r hr c hc
    have h1 := h r (List.mem_range.mpr hr)
    rw [List.map_eq_nil_iff, List.filter_eq_nil_iff] at h1
    have h2 := h1 c (List.mem_range.mpr hc)
    simpa using h2
  · intro h r hr
    rw [List.map_eq_nil_iff, List.filter_eq_nil_iff]
    intro c hc
    rw [h r (List.mem_range.mp hr) c (List.mem_range.mp hc)]
    decide

/-- Reduction of `execute` at a Dxyn opcode whose sprite draw succeeds. -/
theorem execute_draw (s : Chip8) (rnd op : Nat) (res : List Bool × Bool)
    (hd1 : op / 4096 % 16 = 13)
    (hdraw : drawSprite s.memory s.i_reg (s.v_reg.getD (op / 256 % 16) 0)
      (s.v_reg.getD (op / 16 % 16) 0) (op % 16) s.screen = some res) :
    s.execute rnd op =
      some { s with screen := res.1, v_reg := s.v_reg.set 15 (if res.2 then 1 else 0) } := by
  simp only [Chip8.execute, hd1, hdraw]
  norm_num

/-- C6 counterexample: drawing the all-zero one-row sprite at I = 0 on an
all-false display twice leaves VF = 0 after the second draw, where the claim
demands VF = 1 for every sprite. -/
theorem c6_draw_counterexample :
    (Chip8.execute stC6 0 0xD001).bind
      (fun s1 => (Chip8.execute s1 0 0xD001).map (fun s2 => s2.v_reg.getD 15 0)) =
      some 0 ∧ (0 : Nat) ≠ 1 :=
  ⟨rfl, by decide⟩

/-- C6 amended: for a draw opcode Dxyn with n ≥ 1, coordinate registers x and
y different from 0xF (so that the VF write between the draws does not change
the coordinates), and the n sprite bytes readable below 4096, drawing twice
on an initially all-false display returns every pixel to false; VF is 0 after
the first draw, and after the second draw VF = 1 exactly when the sprite has
at least one set bit among its 8-column rows (for an all-zero sprite it stays
0). -/
theorem c6_draw_twice (s : Chip8) (rnd op n x y : Nat)
    (hd1 : op / 4096 % 16 = 13) (hd2 : op / 256 % 16 = x) (hd3 : op / 16 % 16 = y)
    (hd4 : op % 16 = n) (hn1 : 1 ≤ n) (hx : x ≠ 15) (hy : y ≠ 15)
    (hmem : s.memory.length = RAM_SIZE)
    (hreg : s.v_reg.length = NUM_REGS)
    (hscr : s.screen = List.replicate (SCREEN_WIDTH * SCREEN_HEIGHT) false)
    (hi : s.i_reg + n ≤ RAM_SIZE) :
    ∃ s1 s2, s.execute rnd op = some s1 ∧ s1.execute rnd op = some s2 ∧
      s1.v_reg.getD 15 0 = 0 ∧
      (∀ j, s2.screen.getD j false = false) ∧
      (s2.v_reg.getD 15 0 = 1 ↔
        ∃ r, r < n ∧ ∃ c, c < 8 ∧ s.memory.getD (s.i_reg + r) 0 &&& (128 >>> c) ≠ 0) := by
  have hR : RAM_SIZE = 4096 := rfl
  have hreg16 : s.v_reg.length = 16 := hreg
  have hmem4 : s.memory.length = 4096 := by omega
  have hn16 : n < 16 := by omega
  have hr : ∀ r, r < n → s.i_reg + r < s.memory.length := by
    intro r hrn
    omega
  have hm65536 : s.memory.length ≤ 65536 := by omega
  have hnodup : (spriteIdxs s.memory s.i_reg (s.v_reg.getD x 0) (s.v_reg.getD y 0) n).Nodup := spriteIdxs_nodup _ _ _ _ _ (by omega)
  have hjlt : ∀ j, j ∈ (spriteIdxs s.memory s.i_reg (s.v_reg.getD x 0) (s.v_reg.getD y 0) n) → j < SCREEN_WIDTH * SCREEN_HEIGHT := spriteIdxs_lt _ _ _ _ _
  have hscrlen : s.screen.length = SCREEN_WIDTH * SCREEN_HEIGHT := by
    rw [hscr, List.length_replicate]
  have hlt1 : ∀ idx, idx ∈ (spriteIdxs s.memory s.i_reg (s.v_reg.getD x 0) (s.v_reg.getD y 0) n) → idx < s.screen.length := by
    intro idx hidx
    rw [hscrlen]
    exact hjlt idx hidx
  have hscr0 : ∀ j, s.screen.getD j false = false := by
    intro j
    rw [hscr]
    exact getD_replicate_false _ _
  have hdraw1 : drawSprite s.memory s.i_reg (s.v_reg.getD x 0) (s.v_reg.getD y 0) n s.screen = some ((spriteIdxs s.memory s.i_reg (s.v_reg.getD x 0) (s.v_reg.getD y 0) n).foldl xorStep (s.screen, false)) :=
    drawSprite_eq _ _ _ _ _ _ hr hm65536
  obtain ⟨len1, get1, fl1⟩ := foldl_xorStep (spriteIdxs s.memory s.i_reg (s.v_reg.getD x 0) (s.v_reg.getD y 0) n) s.screen false hnodup hlt1
  have hfl1 : ((spriteIdxs s.memory s.i_reg (s.v_reg.getD x 0) (s.v_reg.getD y 0) n).foldl xorStep (s.screen, false)).2 = false := by
    rw [fl1]
    simp only [Bool.false_or]
    rw [List.any_eq_false]
    intro idx _
    simp only [hscr0]
    decide
  have hdraw1op : drawSprite s.memory s.i_reg (s.v_reg.getD (op / 256 % 16) 0)
      (s.v_reg.getD (op / 16 % 16) 0) (op % 16) s.screen = some ((spriteIdxs s.memory s.i_reg (s.v_reg.getD x 0) (s.v_reg.getD y 0) n).foldl xorStep (s.screen, false)) := by
    rw [hd2, hd3, hd4]
    exact hdraw1
  have hexec1 : s.execute rnd op = some { s with screen := ((spriteIdxs s.memory s.i_reg (s.v_reg.getD x 0) (s.v_reg.getD y 0) n).foldl xorStep (s.screen, false)).1, v_reg := s.v_reg.set 15 0 } := by
    rw [execute_draw s rnd op _ hd1 hdraw1op, hfl1]
    norm_num
  have hpix1 : ∀ j, (((spriteIdxs s.memory s.i_reg (s.v_reg.getD x 0) (s.v_reg.getD y 0) n).foldl xorStep (s.screen, false)).1).getD j false = decide (j ∈ (spriteIdxs s.memory s.i_reg (s.v_reg.getD x 0) (s.v_reg.getD y 0) n)) := by
    intro j
    rw [get1 j, hscr0 j, Bool.false_xor]
  have hlt2 : ∀ idx, idx ∈ (spriteIdxs s.memory s.i_reg (s.v_reg.getD x 0) (s.v_reg.getD y 0) n) → idx < (((spriteIdxs s.memory s.i_reg (s.v_reg.getD x 0) (s.v_reg.getD y 0) n).foldl xorStep (s.screen, false)).1).length := by
    intro idx hidx
    rw [len1]
    exact hlt1 idx hidx
  obtain ⟨len2, get2, fl2⟩ := foldl_xorStep (spriteIdxs s.memory s.i_reg (s.v_reg.getD x 0) (s.v_reg.getD y 0) n) (((spriteIdxs s.memory s.i_reg (s.v_reg.getD x 0) (s.v_reg.getD y 0) n).foldl xorStep (s.screen, false)).1) false hnodup hlt2
  have hdraw2 : drawSprite s.memory s.i_reg (s.v_reg.getD x 0) (s.v_reg.getD y 0) n (((spriteIdxs s.memory s.i_reg (s.v_reg.getD x 0) (s.v_reg.getD y 0) n).foldl xorStep (s.screen, false)).1) = some ((spriteIdxs s.memory s.i_reg (s.v_reg.getD x 0) (s.v_reg.getD y 0) n).foldl xorStep (((spriteIdxs s.memory s.i_reg (s.v_reg.getD x 0) (s.v_reg.getD y 0) n).foldl xorStep (s.screen, false)).1, false)) :=
    drawSprite_eq _ _ _ _ _ _ hr hm65536
  have hcx : (s.v_reg.set 15 0).getD x 0 = s.v_reg.getD x 0 :=
    getD_set_ne _ _ _ (fun he => hx he.symm)
  have hcy : (s.v_reg.set 15 0).getD y 0 = s.v_reg.getD y 0 :=
    getD_set_ne _ _ _ (fun he => hy he.symm)
  have hdraw2op : drawSprite ({ s with screen := ((spriteIdxs s.memory s.i_reg (s.v_reg.getD x 0) (s.v_reg.getD y 0) n).foldl xorStep (s.screen, false)).1, v_reg := s.v_reg.set 15 0 } : Chip8).memory ({ s with screen := ((spriteIdxs s.memory s.i_reg (s.v_reg.getD x 0) (s.v_reg.getD y 0) n).foldl xorStep (s.screen, false)).1, v_reg := s.v_reg.set 15 0 } : Chip8).i_reg
      (({ s with screen := ((spriteIdxs s.memory s.i_reg (s.v_reg.getD x 0) (s.v_reg.getD y 0) n).foldl xorStep (s.screen, false)).1, v_reg := s.v_reg.set 15 0 } : Chip8).v_reg.getD (op / 256 % 16) 0)
      (({ s with screen := ((spriteIdxs s.memory s.i_reg (s.v_reg.getD x 0) (s.v_reg.getD y 0) n).foldl xorStep (s.screen, false)).1, v_reg := s.v_reg.set 15 0 } : Chip8).v_reg.getD (op / 16 % 16) 0) (op % 16)
      ({ s with screen := ((spriteIdxs s.memory s.i_reg (s.v_reg.getD x 0) (s.v_reg.getD y 0) n).foldl xorStep (s.screen, false)).1, v_reg := s.v_reg.set 15 0 } : Chip8).screen = some ((spriteIdxs s.memory s.i_reg (s.v_reg.getD x 0) (s.v_reg.getD y 0) n).foldl xorStep (((spriteIdxs s.memory s.i_reg (s.v_reg.getD x 0) (s.v_reg.getD y 0) n).foldl xorStep (s.screen, false)).1, false)) := by
    show drawSprite s.memory s.i_reg ((s.v_reg.set 15 0).getD (op / 256 % 16) 0)
      ((s.v_reg.set 15 0).getD (op / 16 % 16) 0) (op % 16) (((spriteIdxs s.memory s.i_reg (s.v_reg.getD x 0) (s.v_reg.getD y 0) n).foldl xorStep (s.screen, false)).1) = some ((spriteIdxs s.memory s.i_reg (s.v_reg.getD x 0) (s.v_reg.getD y 0) n).foldl xorStep (((spriteIdxs s.memory s.i_reg (s.v_reg.getD x 0) (s.v_reg.getD y 0) n).foldl xorStep (s.screen, false)).1, false))
    rw [hd2, hd3, hd4, hcx, hcy]
    exact hdraw2
  have hexec2 : ({ s with screen := ((spriteIdxs s.memory s.i_reg (s.v_reg.getD x 0) (s.v_reg.getD y 0) n).foldl xorStep (s.screen, false)).1, v_reg := s.v_reg.set 15 0 } : Chip8).execute rnd op =
      some { ({ s with screen := ((spriteIdxs s.memory s.i_reg (s.v_reg.getD x 0) (s.v_reg.getD y 0) n).foldl xorStep (s.screen, false)).1, v_reg := s.v_reg.set 15 0 } : Chip8) with screen := ((spriteIdxs s.memory s.i_reg (s.v_reg.getD x 0) (s.v_reg.getD y 0) n).foldl xorStep (((spriteIdxs s.memory s.i_reg (s.v_reg.getD x 0) (s.v_reg.getD y 0) n).foldl xorStep (s.screen, false)).1, false)).1, v_reg := (s.v_reg.set 15 0).set 15 (if ((spriteIdxs s.memory s.i_reg (s.v_reg.getD x 0) (s.v_reg.getD y 0) n).foldl xorStep (((spriteIdxs s.memory s.i_reg (s.v_reg.getD x 0) (s.v_reg.getD y 0) n).foldl xorStep (s.screen, false)).1, false)).2 then 1 else 0) } :=
    execute_draw _ rnd op _ hd1 hdraw2op
  refine ⟨_, _, hexec1, hexec2, ?_, ?_, ?_⟩
  · show (s.v_reg.set 15 0).getD 15 0 = 0
    exact getD_set_self _ _ _ _ (by omega)
  · intro j
    show (((spriteIdxs s.memory s.i_reg (s.v_reg.getD x 0) (s.v_reg.getD y 0) n).foldl xorStep (((spriteIdxs s.memory s.i_reg (s.v_reg.getD x 0) (s.v_reg.getD y 0) n).foldl xorStep (s.screen, false)).1, false)).1).getD j false = false
    rw [get2 j, hpix1 j]
    exact Bool.xor_self _
  · show ((s.v_reg.set 15 0).set 15 (if ((spriteIdxs s.memory s.i_reg (s.v_reg.getD x 0) (s.v_reg.getD y 0) n).foldl xorStep (((spriteIdxs s.memory s.i_reg (s.v_reg.getD x 0) (s.v_reg.getD y 0) n).foldl xorStep (s.screen, false)).1, false)).2 then 1 else 0)).getD 15 0 = 1 ↔ _
    rw [getD_set_self _ _ _ _ (by rw [List.length_set]; omega)]
    have hfl2 : (((spriteIdxs s.memory s.i_reg (s.v_reg.getD x 0) (s.v_reg.getD y 0) n).foldl xorStep (((spriteIdxs s.memory s.i_reg (s.v_reg.getD x 0) (s.v_reg.getD y 0) n).foldl xorStep (s.screen, false)).1, false)).2 = true) ↔ (spriteIdxs s.memory s.i_reg (s.v_reg.getD x 0) (s.v_reg.getD y 0) n) ≠ [] := by
      rw [fl2]
      simp only [Bool.false_or]
      constructor
      · intro hany hnil
        rw [hnil] at hany
        simp at hany
      · intro hne
        rw [List.any_eq_true]
        obtain ⟨idx, hidx⟩ := List.exists_mem_of_ne_nil (spriteIdxs s.memory s.i_reg (s.v_reg.getD x 0) (s.v_reg.getD y 0) n) hne
        refine ⟨idx, hidx, ?_⟩
        rw [hpix1 idx]
        exact decide_eq_true hidx
    have hnil : ((spriteIdxs s.memory s.i_reg (s.v_reg.getD x 0) (s.v_reg.getD y 0) n) ≠ []) ↔
        ∃ r, r < n ∧ ∃ c, c < 8 ∧ s.memory.getD (s.i_reg + r) 0 &&& (128 >>> c) ≠ 0 := by
      rw [Ne, spriteIdxs_eq_nil_iff]
      push_neg
      rfl
    rw [← hnil, ← hfl2]
    cases h2 : ((spriteIdxs s.memory s.i_reg (s.v_reg.getD x 0) (s.v_reg.getD y 0) n).foldl xorStep (((spriteIdxs s.memory s.i_reg (s.v_reg.getD x 0) (s.v_reg.getD y 0) n).foldl xorStep (s.screen, false)).1, false)).2 <;> simp

/-- C6 witness: the amended draw theorem applied to the fresh machine (I = 0
points at the font byte 0xF0, a nonzero sprite) with opcode D001: the first
draw reports no collision, the second returns the display to all-false and
reports the collision. -/
theorem c6_draw_twice_witness :
    ∃ s1 s2, Chip8.new.execute 0 0xD001 = some s1 ∧ s1.execute 0 0xD001 = some s2 ∧
      s1.v_reg.getD 15 0 = 0 ∧
      (∀ j, s2.screen.getD j false = false) ∧
      (s2.v_reg.getD 15 0 = 1 ↔
        ∃ r, r < 1 ∧ ∃ c, c < 8 ∧
          Chip8.new.memory.getD (Chip8.new.i_reg + r) 0 &&& (128 >>> c) ≠ 0) :=
  c6_draw_twice Chip8.new 0 0xD001 1 0 0 (by decide) (by decide) (by decide) (by decide)
    (by decide) (by decide) (by decide) new_memory_length (by decide) rfl (by decide)

end Chip8Emu
